import Mathlib

/-!
Verification development for the OCR core of the mkwo-records-bot repository.

The remote-strategy module (src/ocr/mod.rs) and the local CV pipeline module
(src/ocr.rs) are shallowly embedded below.  External library behaviour
(the `regex` crate's Unicode tables, the `image` crate's encoders/resizer,
`imageproc`'s connected-component labelling, the filesystem used by the
debug sink, and the HTTP client) is represented either by explicit data
(the Unicode tables) or by oracle parameters supplied to the embedded
control flow; every piece of control flow, arithmetic and string handling
written in the repository itself is translated directly from the source.
-/

deriving instance DecidableEq for Except

namespace MkwoOcr

/-! ## Unicode tables used by the `regex` crate

`TIME_STRICT_RE` and `TIME_FINDER_RE` use `\d`, which in the Rust `regex`
crate is Unicode-aware by default: it matches the Unicode `Nd`
(decimal number) category, not just ASCII `0-9`.  The ranges below are the
`Nd` ranges of the Unicode character database. -/

def ndRanges : List (Nat × Nat) :=
  [(0x30, 0x39), (0x660, 0x669), (0x6F0, 0x6F9), (0x7C0, 0x7C9),
   (0x966, 0x96F), (0x9E6, 0x9EF), (0xA66, 0xA6F), (0xAE6, 0xAEF),
   (0xB66, 0xB6F), (0xBE6, 0xBEF), (0xC66, 0xC6F), (0xCE6, 0xCEF),
   (0xD66, 0xD6F), (0xDE6, 0xDEF), (0xE50, 0xE59), (0xED0, 0xED9),
   (0xF20, 0xF29), (0x1040, 0x1049), (0x1090, 0x1099), (0x17E0, 0x17E9),
   (0x1810, 0x1819), (0x1946, 0x194F), (0x19D0, 0x19D9), (0x1A80, 0x1A89),
   (0x1A90, 0x1A99), (0x1B50, 0x1B59), (0x1BB0, 0x1BB9), (0x1C40, 0x1C49),
   (0x1C50, 0x1C59), (0xA620, 0xA629), (0xA8D0, 0xA8D9), (0xA900, 0xA909),
   (0xA9D0, 0xA9D9), (0xA9F0, 0xA9F9), (0xAA50, 0xAA59), (0xABF0, 0xABF9),
   (0xFF10, 0xFF19), (0x104A0, 0x104A9), (0x10D30, 0x10D39),
   (0x11066, 0x1106F), (0x110F0, 0x110F9), (0x11136, 0x1113F),
   (0x111D0, 0x111D9), (0x112F0, 0x112F9), (0x11450, 0x11459),
   (0x114D0, 0x114D9), (0x11650, 0x11659), (0x116C0, 0x116C9),
   (0x11730, 0x11739), (0x118E0, 0x118E9), (0x11950, 0x11959),
   (0x11C50, 0x11C59), (0x11D50, 0x11D59), (0x11DA0, 0x11DA9),
   (0x11F50, 0x11F59), (0x16A60, 0x16A69), (0x16AC0, 0x16AC9),
   (0x16B50, 0x16B59), (0x1D7CE, 0x1D7FF), (0x1E140, 0x1E149),
   (0x1E2F0, 0x1E2F9), (0x1E4F0, 0x1E4F9), (0x1E950, 0x1E959),
   (0x1FBF0, 0x1FBF9)]

/-- Membership in the Unicode `Nd` category: what `\d` matches in the
`regex` crate (Unicode mode, the default). -/
def isNd (c : Char) : Bool :=
  ndRanges.any (fun r => decide (r.1 ≤ c.toNat) && decide (c.toNat ≤ r.2))

/-- Unicode `White_Space` property: what `char::is_whitespace` (hence
`str::trim`) uses in Rust. -/
def rustIsWhitespace (c : Char) : Bool :=
  (0x9 ≤ c.toNat && c.toNat ≤ 0xD) || c.toNat == 0x20 || c.toNat == 0x85 ||
  c.toNat == 0xA0 || c.toNat == 0x1680 ||
  (0x2000 ≤ c.toNat && c.toNat ≤ 0x200A) || c.toNat == 0x2028 ||
  c.toNat == 0x2029 || c.toNat == 0x202F || c.toNat == 0x205F ||
  c.toNat == 0x3000

/-- Model of Rust `str::trim` on a char list: strip leading and trailing
whitespace. -/
def rustTrimList (cs : List Char) : List Char :=
  ((cs.dropWhile rustIsWhitespace).reverse.dropWhile rustIsWhitespace).reverse

/-- Model of Rust `str::trim`. -/
def rustTrim (s : String) : String :=
  String.mk (rustTrimList s.data)

/-- Model of Rust `str::split(',')`: split at every comma; an empty input
yields one empty piece. -/
def splitOnComma : List Char → List (List Char)
  | [] => [[]]
  | c :: rest =>
    let r := splitOnComma rest
    if c == ',' then [] :: r
    else
      match r with
      | [] => [[c]]
      | h :: t => (c :: h) :: t

/-- ASCII lowercasing of one char, as in `u8::to_ascii_lowercase`. -/
def asciiLower (c : Char) : Char :=
  if 0x41 ≤ c.toNat && c.toNat ≤ 0x5A then Char.ofNat (c.toNat + 32) else c

/-- Model of Rust `str::eq_ignore_ascii_case`. -/
def eqIgnoreAsciiCase (a b : String) : Bool :=
  a.data.map asciiLower == b.data.map asciiLower

/-! ## Rust `u64::from_str` (`str::parse::<u64>()`)

Accepts an optional leading `+`, then one or more ASCII digits; fails with
the messages of `ParseIntError` otherwise (first failure encountered wins:
Rust checks each char for digit-ness and then for overflow, left to
right). -/

/-- ASCII decimal digit, the only digits `u64::from_str` accepts. -/
def isAsciiDigit (c : Char) : Bool :=
  decide (0x30 ≤ c.toNat) && decide (c.toNat ≤ 0x39)

def parseU64Go : List Char → Nat → Except String Nat
  | [], acc => Except.ok acc
  | c :: cs, acc =>
    if isAsciiDigit c then
      let acc2 := acc * 10 + (c.toNat - 0x30)
      if acc2 < 2 ^ 64 then parseU64Go cs acc2
      else Except.error "number too large to fit in target type"
    else Except.error "invalid digit found in string"

def parseU64 (cs : List Char) : Except String Nat :=
  match cs with
  | [] => Except.error "cannot parse integer from empty string"
  | c :: rest =>
    if c == '+' then
      match rest with
      | [] => Except.error "invalid digit found in string"
      | _ => parseU64Go rest 0
    else parseU64Go (c :: rest) 0

/-! ## The two regexes of src/ocr/mod.rs

`TIME_STRICT_RE = ^(\d):([0-5]\d)\.(\d{3})$` and
`TIME_FINDER_RE = (?m)\b(\d):([0-5]\d)\.(\d{3})\b`.
A match of either is exactly eight characters; the three capture groups
are the minute char, the two second chars and the three millisecond
chars. -/

/-- The eight-character core pattern `(\d):([0-5]\d)\.(\d{3})` shared by
both regexes, returning the three capture groups. -/
def timeCoreChars : List Char → Option (List Char × List Char × List Char)
  | [m0, c1, s1, s2, c2, a, b, c] =>
    if isNd m0 && c1 == ':' &&
       (decide (0x30 ≤ s1.toNat) && decide (s1.toNat ≤ 0x35)) && isNd s2 &&
       c2 == '.' && isNd a && isNd b && isNd c then
      some ([m0], [s1, s2], [a, b, c])
    else none
  | _ => none

/-- `TIME_STRICT_RE.captures`: the whole string must be the core pattern
(the regex is anchored with `^` and `$`). -/
def strictCaps (s : String) : Option (List Char × List Char × List Char) :=
  timeCoreChars s.data

/-- Word character for `\b` in the finder regex (`\w`): for the inputs the
theorems below evaluate, ASCII alphanumerics, underscore and `Nd` digits
decide every boundary. -/
def isWordChar (c : Char) : Bool :=
  c.isAlpha || isNd c || c == '_'

/-- Try to match the finder core at the head of `l`; on success return the
eight matched chars and the remainder after them. -/
def finderHead (l : List Char) : Option (List Char × List Char) :=
  match l with
  | m0 :: c1 :: s1 :: s2 :: c2 :: a :: b :: c :: rest =>
    match timeCoreChars [m0, c1, s1, s2, c2, a, b, c] with
    | some _ => some ([m0, c1, s1, s2, c2, a, b, c], rest)
    | none => none
  | _ => none

/-- `TIME_FINDER_RE.find`: leftmost eight-character match of the core
pattern with word boundaries on both sides.  `prev` is the character just
before the current position (`none` at the start of the haystack). -/
def finderFindAux (prev : Option Char) : List Char → Option (List Char)
  | [] => none
  | x :: rest =>
    match finderHead (x :: rest) with
    | some (m, after) =>
      let leftOk := match prev with
        | none => true
        | some p => !isWordChar p
      let rightOk := match after with
        | [] => true
        | y :: _ => !isWordChar y
      if leftOk && rightOk then some m else finderFindAux (some x) rest
    | none => finderFindAux (some x) rest

def finderFind (s : String) : Option (List Char) :=
  finderFindAux none s.data

/-! ## Error and duration types of src/ocr/mod.rs -/

/-- `std::time::Duration` as produced by `parse_duration`
(`Duration::from_secs(minutes * 60 + seconds) + Duration::from_millis(millis)`);
millisecond resolution suffices for every value the module builds. -/
structure RDuration where
  totalMillis : Nat
deriving DecidableEq, Repr

/-- `ExtractError` of src/ocr/mod.rs.  `reqwest::Error` (the `Http`
variant) and `StatusCode` are represented by a message string and the
numeric status code. -/
inductive ExtractError where
  | Http (msg : String)
  | ProviderStatus (provider : String) (status : Nat)
  | ProviderDecode (provider : String) (msg : String)
  | RateLimited (provider : String)
  | YellowMissing
  | InvalidFormat (s : String)
  | MinutesParse (msg : String)
  | SecondsParse (msg : String)
  | MillisParse (msg : String)
  | NoProviders
  | ImageDecode (msg : String)
  | ImageEncode (msg : String)
  | ImageTooLarge
deriving DecidableEq, Repr

/-- `parse_duration` of src/ocr/mod.rs lines 501-522, translated
branch-for-branch (regex captures, three `parse::<u64>()` calls, the
`seconds > 59` guard, and the duration construction). -/
def parse_duration (s : String) : Except ExtractError RDuration :=
  match strictCaps s with
  | none => Except.error (ExtractError.InvalidFormat s)
  | some (mc, sc, msc) =>
    match parseU64 mc with
    | Except.error e => Except.error (ExtractError.MinutesParse e)
    | Except.ok minutes =>
      match parseU64 sc with
      | Except.error e => Except.error (ExtractError.SecondsParse e)
      | Except.ok seconds =>
        if seconds > 59 then
          Except.error (ExtractError.InvalidFormat (String.mk sc))
        else
          match parseU64 msc with
          | Except.error e => Except.error (ExtractError.MillisParse e)
          | Except.ok millis =>
            Except.ok ⟨(minutes * 60 + seconds) * 1000 + millis⟩

/-- `post_process_to_duration` of src/ocr/mod.rs lines 483-499. -/
def post_process_to_duration (text : String) : Except ExtractError RDuration :=
  let t := rustTrim text
  if eqIgnoreAsciiCase t "null" then
    Except.error ExtractError.YellowMissing
  else if (strictCaps t).isSome then
    parse_duration t
  else
    match finderFind t with
    | some m => parse_duration (String.mk m)
    | none => Except.error ExtractError.YellowMissing

/-! ## Provider failover (src/ocr/mod.rs lines 119-214)

The HTTP calls `call_openrouter` / `call_groq` (network, credentials,
JSON decoding) are external effects; they are abstracted as an oracle
`call : Provider → String → Except ExtractError String` giving each
provider's outcome for the prepared image data URL.  Likewise the
image-preparation and client-construction prelude is abstracted as
`setup : Except ExtractError String` producing the data URL.  The provider
loop, the retryability classification and the final error selection are
translated directly from the source. -/

inductive Provider where
  | openRouter
  | groq
deriving DecidableEq, Repr

/-- `read_provider_order` of src/ocr/mod.rs lines 202-214; `envVal` is the
result of `env::var("PROVIDER_ORDER")` (`none` when unset). -/
def read_provider_order (envVal : Option String) : List Provider :=
  let raw := envVal.getD "openrouter,groq"
  (splitOnComma raw.data).filterMap (fun piece =>
    let t := (rustTrimList piece).map asciiLower
    if t == "openrouter".data then some Provider.openRouter
    else if t == "groq".data then some Provider.groq
    else none)

/-- The retryability classification applied to a failed provider call
(src/ocr/mod.rs lines 145-157 and 170-179; both arms are identical). -/
def retryable : ExtractError → Bool
  | ExtractError.RateLimited _ => true
  | ExtractError.Http _ => true
  | ExtractError.ProviderStatus _ s =>
    s == 429 || s == 502 || s == 503 || s == 504 || s == 500
  | _ => false

/-- The provider loop of `extract_time_with_model` (lines 138-191): on
success post-process; on a retryable error record it and continue; on a
fatal error break.  After the loop the recorded error (or `NoProviders`)
is returned. -/
def extractLoop (call : Provider → Except ExtractError String) :
    List Provider → Option ExtractError → Except ExtractError RDuration
  | [], lastErr => Except.error (lastErr.getD ExtractError.NoProviders)
  | p :: rest, _ =>
    match call p with
    | Except.ok text => post_process_to_duration text
    | Except.error e =>
      if retryable e then extractLoop call rest (some e)
      else Except.error e

/-- `extract_time_with_model` of src/ocr/mod.rs lines 125-192, with the
network abstracted as described above. -/
def extract_time_with_model (providers : List Provider)
    (setup : Except ExtractError String)
    (call : Provider → String → Except ExtractError String) :
    Except ExtractError RDuration :=
  if providers.isEmpty then Except.error ExtractError.NoProviders
  else
    match setup with
    | Except.error e => Except.error e
    | Except.ok url => extractLoop (fun p => call p url) providers none

end MkwoOcr

namespace MkwoPipeline

/-! ## Local CV pipeline (src/ocr.rs)

Images are finite row lists; pixel access out of bounds reads 0, which is
never exercised by the embedded code paths.  `anyhow::Error` is modelled
as a list of context strings, outermost first: `with_context` prepends a
string, and a bare `io`/library error is a one-element chain. -/

structure RgbImg where
  w : Nat
  h : Nat
  rows : List (List (Nat × Nat × Nat))
deriving DecidableEq, Repr

structure GrayImg where
  w : Nat
  h : Nat
  rows : List (List Nat)
deriving DecidableEq, Repr

/-- `PipelineData` of src/ocr.rs lines 18-23. -/
inductive PipelineData where
  | Rgb8 (img : RgbImg)
  | Luma8 (img : GrayImg)
  | PngBytes (bytes : List Nat)
  | Text (s : String)
deriving DecidableEq, Repr

/-- Error chains standing for `anyhow::Error`. -/
abbrev AnyErr := List String

/-- A pipeline step: its stable name and its `process` transformation
(src/ocr.rs lines 60-62). -/
structure StepDef where
  name : String
  process : PipelineData → Except AnyErr PipelineData

/-- The debug sink reached from `Step::run`: the result of
`env::var("DEBUG_FOLDER")`, of `fs::create_dir_all`, and of
`ImageBuffer::save` on the step's output.  These are filesystem effects;
each is an oracle outcome. -/
structure DebugSink where
  folder : Except String String
  createDirAll : Except String Unit
  save : PipelineData → Except String Unit

/-- `Step::run` of src/ocr.rs lines 63-94, translated branch-for-branch:
`process` failure is wrapped with the step name (`with_context`); when
`debug` is set and the folder variable resolves, `create_dir_all` and
(for image outputs) `save` are invoked with `?`, so their failures
propagate; a missing folder variable is only logged. -/
def stepRun (s : StepDef) (sink : DebugSink) (debug : Bool)
    (data : PipelineData) : Except AnyErr PipelineData :=
  match s.process data with
  | Except.error e => Except.error (("step " ++ s.name ++ " failed") :: e)
  | Except.ok out =>
    if debug then
      match sink.folder with
      | Except.ok _ =>
        match sink.createDirAll with
        | Except.error e => Except.error [e]
        | Except.ok _ =>
          match out with
          | PipelineData.Rgb8 _ | PipelineData.Luma8 _ =>
            match sink.save out with
            | Except.error e => Except.error [e]
            | Except.ok _ => Except.ok out
          | _ => Except.ok out
      | Except.error _ => Except.ok out
    else Except.ok out

/-- The step loop of `run_pipeline_from_bytes` (src/ocr.rs lines 144-147):
each step's output becomes the next step's input, and a failing step
aborts the whole run. -/
def runSteps (sink : DebugSink) (debug : Bool) :
    List StepDef → PipelineData → Except AnyErr PipelineData
  | [], d => Except.ok d
  | s :: rest, d =>
    match stepRun s sink debug d with
    | Except.ok out => runSteps sink debug rest out
    | Except.error e => Except.error e

/-! ### Region detection, `FindCardCrop::process` (src/ocr.rs lines 230-269)

`imageproc::region_labelling::connected_components` is a library call and
is abstracted as an oracle `cc : GrayImg → GrayImg` producing the label
image.  The bounding-box scan, the aspect-ratio filter and the
`max_by_key` selection are translated from the source.  The `extents`
`HashMap`'s `.values()` iteration order is unspecified in Rust; it is made
explicit as an `order : List Nat` parameter listing the labels in the
order the map yields them (a permutation of the distinct nonzero labels).
Aspect ratios are computed in `ℚ`; the source computes them in `f32`,
where division of integers below 2^20 is exactly rounded and can only
disagree with `ℚ` on the half-open bounds when the true ratio is within
half an ulp of 3 or 5, which forces equality for such dimensions. -/

/-- Scan positions in source order: `y` outer, `x` inner. -/
def scanPositions (w h : Nat) : List (Nat × Nat) :=
  (List.range h).flatMap (fun y => (List.range w).map (fun x => (x, y)))

def getPix (g : GrayImg) (x y : Nat) : Nat :=
  (g.rows.getD y []).getD x 0

/-- The bounding-box fold of the extents loop for one label: first
occurrence seeds `(x, y, x, y)`, later occurrences update the four
min/max fields. -/
def extentsFor (g : GrayImg) (lab : Nat) : Option (Nat × Nat × Nat × Nat) :=
  (scanPositions g.w g.h).foldl
    (fun acc p =>
      if getPix g p.1 p.2 == lab then
        match acc with
        | none => some (p.1, p.2, p.1, p.2)
        | some (a, b, c, d) =>
          some (min a p.1, min b p.2, max c p.1, max d p.2)
      else acc)
    none

/-- `imageproc::rect::Rect` as built at src/ocr.rs lines 251-253. -/
structure Rect where
  left : Nat
  top : Nat
  width : Nat
  height : Nat
deriving DecidableEq, Repr

def extentsToRect (e : Nat × Nat × Nat × Nat) : Rect :=
  ⟨e.1, e.2.1, e.2.2.1 - e.1 + 1, e.2.2.2 - e.2.1 + 1⟩

/-- The aspect-ratio filter `(3.0..5.0).contains(&(w as f32 / h as f32))`:
a half-open range, `3 ≤ w/h < 5`, stated by the equivalent integer
comparisons `3h ≤ w ∧ w < 5h`.  For `h > 0` these coincide with the
rational comparisons; `f32` division of integers below 2^20 is exactly
rounded with 3 and 5 exactly representable, so the `f32` test has the
same value.  For `h = 0` the `f32` ratio is infinity or NaN and the
range test is false, as here. -/
def arOK (r : Rect) : Bool :=
  decide (3 * r.height ≤ r.width) && decide (r.width < 5 * r.height)

def rectArea (r : Rect) : Nat := r.width * r.height

/-- Rust `Iterator::max_by_key`: among elements with the maximal key, the
last one in iteration order is returned. -/
def rustMaxByKey (f : α → Nat) : List α → Option α
  | [] => none
  | x :: xs =>
    match rustMaxByKey f xs with
    | none => some x
    | some m => if f m < f x then some x else some m

/-- The surviving rectangles, in map-iteration order: bounding boxes of
the labels listed by `order`, filtered by the aspect-ratio window. -/
def survivors (labels : GrayImg) (order : List Nat) : List Rect :=
  ((order.filterMap (extentsFor labels)).map extentsToRect).filter arOK

/-- The rectangle selection of `FindCardCrop::process`: survivors'
maximum by area under Rust `max_by_key` semantics. -/
def findCardRect (labels : GrayImg) (order : List Nat) : Option Rect :=
  rustMaxByKey rectArea (survivors labels order)

/-- `image::imageops::crop_imm(&orig, left, top, width, height).to_image()`
for an in-bounds rectangle. -/
def cropRgb (img : RgbImg) (r : Rect) : RgbImg :=
  ⟨r.width, r.height,
   ((img.rows.drop r.top).take r.height).map
     (fun row => (row.drop r.left).take r.width)⟩

/-- `FindCardCrop::process` of src/ocr.rs lines 230-269, with the
connected-component labelling supplied by the oracle `cc` and the map
iteration order by `order`. -/
def findCardProcess (cc : GrayImg → GrayImg) (order : List Nat)
    (orig : RgbImg) (data : PipelineData) : Except AnyErr PipelineData :=
  match data with
  | PipelineData.Luma8 closed =>
    match findCardRect (cc closed) order with
    | some r => Except.ok (PipelineData.Rgb8 (cropRgb orig r))
    | none => Except.error ["no card found"]
  | _ => Except.error ["Expected Luma image"]

end MkwoPipeline

namespace MkwoOcr

/-! ## Payload negotiation (src/ocr/mod.rs lines 342-479)

The `image` crate's decoder, resizer and encoders are external; an image
is represented by its dimensions and alpha flag, and the library calls by
an `ImageLib` oracle (`resize` for `DynamicImage::resize`, and the two
encoders returning the encoded byte count, `none` on encoder failure).
The negotiation loop, the base64 size estimate, the early-return order,
the quality/side-cap schedule and the format re-preference are translated
from the source.  The returned data URL is represented by the chosen
format together with the image state that was encoded. -/

structure RImg where
  w : Nat
  h : Nat
  alpha : Bool
deriving DecidableEq, Repr

structure ImageLib where
  resize : RImg → Nat → Nat → RImg
  encPngLen : RImg → Option Nat
  encJpegLen : RImg → Nat → Option Nat

inductive ImgFormat where
  | png
  | jpeg
deriving DecidableEq, Repr

/-- The value of the data URL built on success: the format of the winning
encoding and the image state that was encoded into it. -/
structure PreparedImage where
  fmt : ImgFormat
  img : RImg
deriving DecidableEq, Repr

/-- `estimate_base64_len` of src/ocr/mod.rs lines 476-479. -/
def estimate_base64_len (rawBytes : Nat) : Nat :=
  ((rawBytes + 2) / 3) * 4

/-- Round `num / den` to the nearest integer, halves away from zero
(`f32::round` on a nonnegative value): the floor of `num/den + 1/2`. -/
def roundHalfUpDiv (num den : Nat) : Nat :=
  (2 * num + den) / (2 * den)

/-- `resize_long_side` of src/ocr/mod.rs lines 427-437.  The source
computes `scale = max_side / long` and `round(w * scale)` in `f32`;
here the rounded quotient is computed exactly, which agrees with the
`f32` computation at the dimensions used in the theorems below. -/
def resize_long_side (lib : ImageLib) (img : RImg) (maxSide : Nat) : RImg :=
  let long := max img.w img.h
  if long ≤ maxSide then img
  else
    let nw := max 1 (roundHalfUpDiv (img.w * maxSide) long)
    let nh := max 1 (roundHalfUpDiv (img.h * maxSide) long)
    lib.resize img nw nh

def SAFE_BASE64_MAX : Nat := 3900000

def fitsBudget (rawLen : Nat) : Bool :=
  estimate_base64_len rawLen ≤ SAFE_BASE64_MAX

/-- The ordered encoding attempts of one loop round: PNG first when
preferred, then JPEG at the current quality, then PNG as the fallback
alternative; a failed encoder contributes nothing. -/
def roundAttempts (lib : ImageLib) (current : RImg) (q : Nat)
    (preferPng : Bool) : List (ImgFormat × Nat) :=
  (if preferPng then
    (lib.encPngLen current).toList.map (fun n => (ImgFormat.png, n))
   else []) ++
  (lib.encJpegLen current q).toList.map (fun n => (ImgFormat.jpeg, n)) ++
  (if preferPng then []
   else (lib.encPngLen current).toList.map (fun n => (ImgFormat.png, n)))

/-- First element of the stable `sort_by_key` of the candidate list: the
earliest candidate with the minimal base64 estimate. -/
def stableMinByLen (l : List (ImgFormat × Nat)) : Option (ImgFormat × Nat) :=
  l.foldl
    (fun acc x =>
      match acc with
      | none => some x
      | some m => if x.2 < m.2 then some x else some m)
    none

/-- One round of the `for _ in 0..10` loop of `prepare_image_data_url`
(lines 361-422), plus the recursion over the remaining rounds.  Each
attempt returns immediately when its base64 estimate fits the budget;
otherwise every attempt becomes a candidate, quality drops by 10 while
above 55, then the side cap shrinks by the 0.85 factor (integer value of
the `f32` product), failing below the 512 minimum, and the preferred
format for the next round is the candidate with the smallest estimate. -/
def prepLoop (lib : ImageLib) :
    Nat → Nat → RImg → Nat → Bool → Except ExtractError PreparedImage
  | 0, _, _, _, _ => Except.error ExtractError.ImageTooLarge
  | fuel + 1, sideCap, current, q, preferPng =>
    let attempts := roundAttempts lib current q preferPng
    match attempts.find? (fun a => fitsBudget a.2) with
    | some a => Except.ok ⟨a.1, current⟩
    | none =>
      if 55 < q then prepLoop lib fuel sideCap current (q - 10) preferPng
      else
        let candidates := attempts.map
          (fun a => (a.1, estimate_base64_len a.2))
        let sideCap2 := sideCap * 85 / 100
        if sideCap2 < 512 then Except.error ExtractError.ImageTooLarge
        else
          let current2 := resize_long_side lib current sideCap2
          let preferPng2 :=
            match stableMinByLen candidates with
            | some c => c.1 == ImgFormat.png
            | none => preferPng
          prepLoop lib fuel sideCap2 current2 q preferPng2

/-- `prepare_image_data_url` of src/ocr/mod.rs lines 342-425 for an
already-decoded image: prefer PNG when the source has alpha, apply the
initial 1280 long-side cap, then run up to ten negotiation rounds
starting from JPEG quality 85. -/
def prepare_image_data_url (lib : ImageLib) (img : RImg) :
    Except ExtractError PreparedImage :=
  let preferPng := img.alpha
  let img1 := resize_long_side lib img 1280
  prepLoop lib 10 1280 img1 85 preferPng

end MkwoOcr

open MkwoOcr MkwoPipeline

/-! ## Concrete fixtures used by counterexamples and witnesses -/

/-- Label image with two tied 8x2 components (labels 1 and 2), both with
aspect ratio 4 and area 16; label 1 is encountered first in scan order. -/
def tieLabels : GrayImg :=
  ⟨8, 6,
   [[1, 1, 1, 1, 1, 1, 1, 1],
    [1, 1, 1, 1, 1, 1, 1, 1],
    [0, 0, 0, 0, 0, 0, 0, 0],
    [0, 0, 0, 0, 0, 0, 0, 0],
    [2, 2, 2, 2, 2, 2, 2, 2],
    [2, 2, 2, 2, 2, 2, 2, 2]]⟩

/-- The binary mask whose 8-connected labelling is `tieLabels`. -/
def tieMask : GrayImg :=
  ⟨8, 6,
   [[255, 255, 255, 255, 255, 255, 255, 255],
    [255, 255, 255, 255, 255, 255, 255, 255],
    [0, 0, 0, 0, 0, 0, 0, 0],
    [0, 0, 0, 0, 0, 0, 0, 0],
    [255, 255, 255, 255, 255, 255, 255, 255],
    [255, 255, 255, 255, 255, 255, 255, 255]]⟩

/-- An 8x6 colour image whose rows are pairwise distinct, so different
crops are visibly different. -/
def tieOrig : RgbImg :=
  ⟨8, 6, (List.range 6).map (fun y => List.replicate 8 (y, y, y))⟩

/-- Label image with one component inside the aspect window (label 1,
8x2, ratio 4) and one outside it (label 2, 2x2, ratio 1). -/
def inOutLabels : GrayImg :=
  ⟨8, 6,
   [[1, 1, 1, 1, 1, 1, 1, 1],
    [1, 1, 1, 1, 1, 1, 1, 1],
    [0, 0, 0, 0, 0, 0, 0, 0],
    [0, 0, 0, 0, 0, 0, 0, 0],
    [2, 2, 0, 0, 0, 0, 0, 0],
    [2, 2, 0, 0, 0, 0, 0, 0]]⟩

/-- Label image with two in-window components of distinct areas:
label 1 is 8x2 (area 16), label 2 is 6x2 (ratio 3, area 12). -/
def uniqLabels : GrayImg :=
  ⟨8, 6,
   [[1, 1, 1, 1, 1, 1, 1, 1],
    [1, 1, 1, 1, 1, 1, 1, 1],
    [0, 0, 0, 0, 0, 0, 0, 0],
    [0, 0, 0, 0, 0, 0, 0, 0],
    [2, 2, 2, 2, 2, 2, 0, 0],
    [2, 2, 2, 2, 2, 2, 0, 0]]⟩

/-- Image-library oracle used by the C8 counterexample: encoding always
yields 1000 bytes (well under the budget) and resizing hits the requested
bounding box exactly, as `DynamicImage::resize` does when the aspect
ratios agree. -/
def c8lib : ImageLib :=
  { resize := fun i nw nh => ⟨nw, nh, i.alpha⟩
    encPngLen := fun _ => some 1000
    encJpegLen := fun _ _ => some 1000 }

/-- Provider-call oracle used by the C3 witness: the first provider is
rate-limited, the second answers. -/
def c3call : Provider → String → Except ExtractError String := fun p _ =>
  match p with
  | Provider.openRouter => Except.error (ExtractError.RateLimited "openrouter")
  | Provider.groq => Except.ok "1:05.250"

/-- Provider-call oracle used by the C4 witness: both providers fail with
retryable errors. -/
def c4call : Provider → String → Except ExtractError String := fun p _ =>
  match p with
  | Provider.openRouter => Except.error (ExtractError.RateLimited "openrouter")
  | Provider.groq => Except.error (ExtractError.ProviderStatus "groq" 503)

/-- Step used by the C5 counterexample: a successful identity step. -/
def c5step : StepDef := ⟨"mask_yellow", fun d => Except.ok d⟩

/-- Debug sink used by the C5 counterexample: the debug folder is
configured and the directory is created, but saving the image fails. -/
def c5sink : DebugSink :=
  ⟨Except.ok "debug", Except.ok (), fun _ => Except.error "disk full"⟩

/-- The amended C1 grammar and value, written from the claim's words
(with the corrections the counterexample forces): exactly one ASCII
minute digit, a colon, two ASCII second digits forming a value of at most
59, a dot, exactly three ASCII millisecond digits; the value is
minutes*60 seconds plus seconds, plus the milliseconds. -/
def claimTimeValue : List Char → Option Nat
  | [m, c1, s1, s2, c2, a, b, c] =>
    if isAsciiDigit m && (c1 == ':') && isAsciiDigit s1 && isAsciiDigit s2 &&
       decide (10 * (s1.toNat - 0x30) + (s2.toNat - 0x30) ≤ 59) &&
       (c2 == '.') && isAsciiDigit a && isAsciiDigit b && isAsciiDigit c then
      some (((m.toNat - 0x30) * 60 +
              (10 * (s1.toNat - 0x30) + (s2.toNat - 0x30))) * 1000 +
            (100 * (a.toNat - 0x30) + 10 * (b.toNat - 0x30) +
              (c.toNat - 0x30)))
    else none
  | _ => none

/-! ## Claim C2: the `null` sentinel and garbled prose -/

/-- C2, counterexample: the claim asserts that the trimmed literal
`null` yields a dedicated error distinct from the error for prose with no
time-format substring.  In the code both paths return the very same
`YellowMissing` variant, so the two cases cannot be told apart by the
error variant. -/
theorem c2_null_prose_not_distinct_cex :
    post_process_to_duration "null" = Except.error ExtractError.YellowMissing ∧
    post_process_to_duration "no time visible" =
      Except.error ExtractError.YellowMissing :=
  ⟨by decide, by decide⟩

/-- C2, amended: every response whose trimmed text equals `null`
case-insensitively is mapped to `YellowMissing`, and prose containing no
time-format substring is mapped to the same `YellowMissing` error — the
two cases share one error variant and are not distinguishable by it. -/
theorem c2_null_sentinel_yellow_missing (t : String)
    (h : eqIgnoreAsciiCase (rustTrim t) "null" = true) :
    post_process_to_duration t = Except.error ExtractError.YellowMissing ∧
    post_process_to_duration "no time visible" =
      Except.error ExtractError.YellowMissing := by
  refine ⟨?_, by decide⟩
  unfold post_process_to_duration
  simp [h]

/-- C2, witness for the amended theorem at the concrete input `" NULL "`. -/
theorem c2_null_sentinel_yellow_missing_witness :
    post_process_to_duration " NULL " =
      Except.error ExtractError.YellowMissing :=
  (c2_null_sentinel_yellow_missing " NULL " (by decide)).1

/-! ## Claim C3: provider failover order and retryability -/

/-- C3: the retryability classification matches the claimed set
(429, 500, 502, 503, 504, rate-limit and transport failures retryable;
decode failures fatal); after a retryable failure the next configured
provider's success is returned and no later provider matters; after a
fatal failure that first error is returned and no later provider is
attempted. -/
theorem c3_provider_failover :
    (∀ (pr msg : String) (n : Nat),
      (retryable (ExtractError.ProviderStatus pr n) = true ↔
        n = 429 ∨ n = 500 ∨ n = 502 ∨ n = 503 ∨ n = 504) ∧
      retryable (ExtractError.Http msg) = true ∧
      retryable (ExtractError.RateLimited pr) = true ∧
      retryable (ExtractError.ProviderDecode pr msg) = false) ∧
    (∀ (url t : String) (call : Provider → String → Except ExtractError String)
      (p1 p2 : Provider) (rest : List Provider) (e1 : ExtractError),
      call p1 url = Except.error e1 → retryable e1 = true →
      call p2 url = Except.ok t →
      extract_time_with_model (p1 :: p2 :: rest) (Except.ok url) call =
        post_process_to_duration t ∧
      extract_time_with_model (p1 :: p2 :: rest) (Except.ok url) call =
        extract_time_with_model [p1, p2] (Except.ok url) call) ∧
    (∀ (url : String) (call : Provider → String → Except ExtractError String)
      (p1 : Provider) (rest : List Provider) (e1 : ExtractError),
      call p1 url = Except.error e1 → retryable e1 = false →
      extract_time_with_model (p1 :: rest) (Except.ok url) call =
        Except.error e1) := by
  refine ⟨?_, ?_, ?_⟩
  · intro pr msg n
    refine ⟨?_, by simp [retryable], by simp [retryable], by simp [retryable]⟩
    simp only [retryable, Bool.or_eq_true, beq_iff_eq]
    tauto
  · intro url t call p1 p2 rest e1 h1 h2 h3
    constructor <;>
      simp [extract_time_with_model, extractLoop, h1, h2, h3]
  · intro url call p1 rest e1 h1 h2
    simp [extract_time_with_model, extractLoop, h1, h2]

/-- C3, witness: with OpenRouter rate-limited and Groq answering
`1:05.250`, extraction over three configured providers returns Groq's
parsed 65.250 seconds. -/
theorem c3_provider_failover_witness :
    extract_time_with_model
      [Provider.openRouter, Provider.groq, Provider.openRouter]
      (Except.ok "url") c3call = Except.ok ⟨65250⟩ := by
  have h := (c3_provider_failover.2.1 "url" "1:05.250" c3call
    Provider.openRouter Provider.groq [Provider.openRouter]
    (ExtractError.RateLimited "openrouter")
    (by decide) (by decide) (by decide)).1
  rw [h]
  decide

/-! ## Claim C4: behaviour on empty or exhausted provider lists -/

/-- C4, counterexample: the claim asserts that exhausting every
configured provider yields the no-providers-configured error.  With one
configured provider failing with a retryable rate-limit error, the code
returns that recorded error, not `NoProviders`. -/
theorem c4_exhausted_not_noproviders_cex :
    extract_time_with_model [Provider.openRouter] (Except.ok "url")
      (fun _ _ => Except.error (ExtractError.RateLimited "openrouter")) =
      Except.error (ExtractError.RateLimited "openrouter") ∧
    ExtractError.RateLimited "openrouter" ≠ ExtractError.NoProviders :=
  ⟨by decide, by decide⟩

/-- The provider loop under totally-failing retryable calls returns the
error recorded for the last provider in the list. -/
theorem extractLoop_all_retryable
    (call : Provider → Except ExtractError String) :
    ∀ (ps : List Provider) (acc : Option ExtractError) (pl : Provider)
      (e : ExtractError),
      (∀ p ∈ ps, ∃ e2, call p = Except.error e2 ∧ retryable e2 = true) →
      ps.getLast? = some pl → call pl = Except.error e →
      extractLoop call ps acc = Except.error e := by
  intro ps
  induction ps with
  | nil => intro acc pl e _ hlast _; simp at hlast
  | cons p rest ih =>
    intro acc pl e hall hlast hpl
    obtain ⟨e2, hc, hr⟩ := hall p (List.mem_cons_self p rest)
    cases rest with
    | nil =>
      simp at hlast
      subst hlast
      rw [hpl] at hc
      cases hc
      simp [extractLoop, hpl, hr]
    | cons q rest2 =>
      rw [List.getLast?_cons_cons] at hlast
      have step : extractLoop call (p :: q :: rest2) acc =
          extractLoop call (q :: rest2) (some e2) := by
        simp [extractLoop, hc, hr]
      rw [step]
      exact ih (some e2) pl e
        (fun x hx => hall x (List.mem_cons_of_mem p hx)) hlast hpl

/-- C4, amended: an empty provider list fails with
no-providers-configured; but when every configured provider has been
tried and failed (with retryable errors), the call fails with the last
provider's recorded error, not with the no-providers-configured error. -/
theorem c4_empty_vs_exhausted
    (setup : Except ExtractError String)
    (call : Provider → String → Except ExtractError String)
    (url : String) (ps : List Provider) (pl : Provider) (e : ExtractError)
    (hall : ∀ p ∈ ps, ∃ e2, call p url = Except.error e2 ∧ retryable e2 = true)
    (hlast : ps.getLast? = some pl) (hpl : call pl url = Except.error e) :
    extract_time_with_model [] setup call =
      Except.error ExtractError.NoProviders ∧
    extract_time_with_model ps (Except.ok url) call = Except.error e := by
  constructor
  · simp [extract_time_with_model]
  · have hne : ps ≠ [] := by
      intro hcon
      rw [hcon] at hlast
      simp at hlast
    have : ps.isEmpty = false := by
      cases ps with
      | nil => exact absurd rfl hne
      | cons a l => rfl
    unfold extract_time_with_model
    rw [this]
    simp only [Bool.false_eq_true, if_false]
    exact extractLoop_all_retryable (fun p => call p url) ps none pl e
      hall hlast hpl

/-- C4, witness: with both providers failing retryably, the result is the
last provider's 503 error, and the empty list gives `NoProviders`. -/
theorem c4_empty_vs_exhausted_witness :
    extract_time_with_model [] (Except.ok "url") c4call =
      Except.error ExtractError.NoProviders ∧
    extract_time_with_model [Provider.openRouter, Provider.groq]
      (Except.ok "url") c4call =
      Except.error (ExtractError.ProviderStatus "groq" 503) :=
  c4_empty_vs_exhausted (Except.ok "url") c4call "url"
    [Provider.openRouter, Provider.groq] Provider.groq
    (ExtractError.ProviderStatus "groq" 503)
    (by
      intro p hp
      cases hp with
      | head => exact ⟨ExtractError.RateLimited "openrouter", by decide⟩
      | tail _ h2 =>
        cases h2 with
        | head => exact ⟨ExtractError.ProviderStatus "groq" 503, by decide⟩
        | tail _ h3 => cases h3)
    (by decide) (by decide)

/-! ## Claim C5: debug capture is claimed to be best-effort -/

/-- C5, counterexample: the claim says a failure serializing the output
IR to the debug sink is logged but never fails the step, and that the
outcome with debug enabled equals the outcome with debug disabled.  In
the code `fs::create_dir_all` and `ImageBuffer::save` are invoked with
`?`, so with the debug folder configured a save failure fails the step:
the same successful step returns an error with debug on and its output
with debug off. -/
theorem c5_debug_save_failure_fails_step_cex :
    stepRun c5step c5sink true (PipelineData.Luma8 ⟨1, 1, [[0]]⟩) =
      Except.error ["disk full"] ∧
    stepRun c5step c5sink false (PipelineData.Luma8 ⟨1, 1, [[0]]⟩) =
      Except.ok (PipelineData.Luma8 ⟨1, 1, [[0]]⟩) ∧
    (Except.error ["disk full"] :
      Except AnyErr PipelineData) ≠
      Except.ok (PipelineData.Luma8 ⟨1, 1, [[0]]⟩) :=
  ⟨rfl, rfl, by decide⟩

/-- C5, amended: only the failure to resolve the debug-folder variable is
merely logged — with it unset, the outcome with debug enabled equals the
outcome with debug disabled, and likewise when directory creation and
image saving succeed; but with the folder configured, a directory-creation
failure (and likewise a save failure) propagates and fails the step even
though the step's own transformation succeeded. -/
theorem c5_debug_sink_best_effort_only_without_folder :
    (∀ (s : StepDef) (sink : DebugSink) (data : PipelineData) (w : String),
      sink.folder = Except.error w →
      stepRun s sink true data = stepRun s sink false data) ∧
    (∀ (s : StepDef) (sink : DebugSink) (data : PipelineData) (f : String),
      sink.folder = Except.ok f → sink.createDirAll = Except.ok () →
      (∀ o, sink.save o = Except.ok ()) →
      stepRun s sink true data = stepRun s sink false data) ∧
    (∀ (s : StepDef) (sink : DebugSink) (data out : PipelineData)
      (e f : String),
      s.process data = Except.ok out → sink.folder = Except.ok f →
      sink.createDirAll = Except.error e →
      stepRun s sink true data = Except.error [e]) := by
  refine ⟨?_, ?_, ?_⟩
  · intro s sink data w hw
    unfold stepRun
    cases hp : s.process data with
    | error e => rfl
    | ok out => simp [hw]
  · intro s sink data f hf hdir hsave
    unfold stepRun
    cases hp : s.process data with
    | error e => rfl
    | ok out =>
      simp only [hf, hdir, if_true]
      cases out <;> simp [hsave]
  · intro s sink data out e f hp hf hdir
    unfold stepRun
    simp [hp, hf, hdir]

/-- C5, witness: with the debug folder unset, an identity step's outcome
is unchanged by enabling debug. -/
theorem c5_debug_sink_best_effort_only_without_folder_witness :
    stepRun ⟨"open", fun d => Except.ok d⟩
      ⟨Except.error "environment variable not found", Except.ok (),
        fun _ => Except.ok ()⟩ true (PipelineData.Text "x") =
    stepRun ⟨"open", fun d => Except.ok d⟩
      ⟨Except.error "environment variable not found", Except.ok (),
        fun _ => Except.ok ()⟩ false (PipelineData.Text "x") :=
  c5_debug_sink_best_effort_only_without_folder.1
    ⟨"open", fun d => Except.ok d⟩
    ⟨Except.error "environment variable not found", Except.ok (),
      fun _ => Except.ok ()⟩
    (PipelineData.Text "x") "environment variable not found" rfl

/-! ## Claim C6: strict sequencing and failure attribution -/

/-- Unfolding equation of `runSteps` on a step list head. -/
theorem runSteps_cons (sink : DebugSink) (debug : Bool) (s : StepDef)
    (rest : List StepDef) (d : PipelineData) :
    runSteps sink debug (s :: rest) d =
      match stepRun s sink debug d with
      | Except.ok out => runSteps sink debug rest out
      | Except.error e => Except.error e := rfl

/-- Splitting a pipeline run at an append: the second half runs on the
first half's output, and a first-half failure short-circuits. -/
theorem runSteps_append (sink : DebugSink) (debug : Bool)
    (l1 l2 : List StepDef) :
    ∀ d, runSteps sink debug (l1 ++ l2) d =
      match runSteps sink debug l1 d with
      | Except.ok mid => runSteps sink debug l2 mid
      | Except.error e => Except.error e := by
  induction l1 with
  | nil => intro d; rfl
  | cons s rest ih =>
    intro d
    show runSteps sink debug (s :: (rest ++ l2)) d = _
    rw [runSteps_cons, runSteps_cons]
    cases h : stepRun s sink debug d with
    | ok out => exact ih out
    | error e => rfl

/-- C6: steps run strictly in sequence; if the steps before `s` produce
`mid` and `s`'s transformation fails on `mid` with `cause`, the whole run
returns an error naming `s` together with the cause, and the value is the
same for every list of later steps — no step after the failing one is
ever invoked and no partial result is returned. -/
theorem c6_pipeline_stops_at_failing_step (sink : DebugSink) (debug : Bool)
    (pre : List StepDef) (s : StepDef) (post : List StepDef)
    (init mid : PipelineData) (cause : AnyErr)
    (hpre : runSteps sink debug pre init = Except.ok mid)
    (hfail : s.process mid = Except.error cause) :
    runSteps sink debug (pre ++ s :: post) init =
      Except.error (("step " ++ s.name ++ " failed") :: cause) ∧
    ∀ post2, runSteps sink debug (pre ++ s :: post) init =
      runSteps sink debug (pre ++ s :: post2) init := by
  have key : ∀ (tail : List StepDef),
      runSteps sink debug (pre ++ s :: tail) init =
        Except.error (("step " ++ s.name ++ " failed") :: cause) := by
    intro tail
    rw [runSteps_append sink debug pre (s :: tail) init, hpre]
    unfold runSteps stepRun
    rw [hfail]
  exact ⟨key post, fun post2 => (key post).trans (key post2).symm⟩

/-- C6, witness: a three-step pipeline whose second step fails returns an
error naming the second step, independently of the third step. -/
theorem c6_pipeline_stops_at_failing_step_witness :
    runSteps ⟨Except.error "unset", Except.ok (), fun _ => Except.ok ()⟩ false
      [⟨"load", fun d => Except.ok d⟩,
       ⟨"mask_yellow", fun _ => Except.error ["boom"]⟩,
       ⟨"open", fun d => Except.ok d⟩]
      (PipelineData.Text "x") =
      Except.error ["step mask_yellow failed", "boom"] :=
  (c6_pipeline_stops_at_failing_step
    ⟨Except.error "unset", Except.ok (), fun _ => Except.ok ()⟩ false
    [⟨"load", fun d => Except.ok d⟩]
    ⟨"mask_yellow", fun _ => Except.error ["boom"]⟩
    [⟨"open", fun d => Except.ok d⟩]
    (PipelineData.Text "x") (PipelineData.Text "x") ["boom"]
    rfl rfl).1

/-! ## Claims C7 and C9: region selection and hash-order dependence -/

/-- `rustMaxByKey` returns `none` exactly on the empty list. -/
theorem rustMaxByKey_eq_none_iff (f : α → Nat) (l : List α) :
    rustMaxByKey f l = none ↔ l = [] := by
  cases l with
  | nil => simp [rustMaxByKey]
  | cons x xs =>
    simp only [rustMaxByKey]
    cases rustMaxByKey f xs with
    | none => simp
    | some m =>
      constructor
      · intro h
        by_cases hfm : f m < f x <;> simp [hfm] at h
      · intro h
        cases h

/-- A `rustMaxByKey` result is a member of the list. -/
theorem rustMaxByKey_mem (f : α → Nat) (l : List α) (m : α)
    (h : rustMaxByKey f l = some m) : m ∈ l := by
  induction l generalizing m with
  | nil => cases h
  | cons x xs ih =>
    simp only [rustMaxByKey] at h
    cases hx : rustMaxByKey f xs with
    | none =>
      rw [hx] at h
      cases h
      exact List.mem_cons_self x xs
    | some m2 =>
      rw [hx] at h
      have h2 : (if f m2 < f x then some x else some m2) = some m := h
      by_cases hfm : f m2 < f x
      · rw [if_pos hfm] at h2
        cases h2
        exact List.mem_cons_self x xs
      · rw [if_neg hfm] at h2
        cases h2
        exact List.mem_cons_of_mem x (ih _ hx)

/-- A `rustMaxByKey` result has the maximal key. -/
theorem rustMaxByKey_le (f : α → Nat) (l : List α) (m : α)
    (h : rustMaxByKey f l = some m) : ∀ x ∈ l, f x ≤ f m := by
  induction l generalizing m with
  | nil => cases h
  | cons x xs ih =>
    intro y hy
    simp only [rustMaxByKey] at h
    cases hx : rustMaxByKey f xs with
    | none =>
      rw [hx] at h
      cases h
      have hnil : xs = [] := (rustMaxByKey_eq_none_iff f xs).mp hx
      subst hnil
      rcases List.mem_cons.mp hy with rfl | hmem
      · exact Nat.le_refl _
      · cases hmem
    | some m2 =>
      rw [hx] at h
      have h2 : (if f m2 < f x then some x else some m2) = some m := h
      by_cases hfm : f m2 < f x
      · rw [if_pos hfm] at h2
        cases h2
        rcases List.mem_cons.mp hy with rfl | hmem
        · exact Nat.le_refl _
        · exact Nat.le_of_lt (Nat.lt_of_le_of_lt (ih m2 hx y hmem) hfm)
      · rw [if_neg hfm] at h2
        cases h2
        rcases List.mem_cons.mp hy with rfl | hmem
        · exact Nat.le_of_not_lt hfm
        · exact ih _ hx y hmem

/-- When the list holds an element strictly greater than every other
element, `rustMaxByKey` returns it whatever the order. -/
theorem rustMaxByKey_unique (f : α → Nat) (l : List α) (r : α)
    (hr : r ∈ l) (hmax : ∀ x ∈ l, x ≠ r → f x < f r) :
    rustMaxByKey f l = some r := by
  induction l with
  | nil => cases hr
  | cons x xs ih =>
    simp only [rustMaxByKey]
    rcases List.mem_cons.mp hr with rfl | hmem
    · cases hx : rustMaxByKey f xs with
      | none => rfl
      | some m =>
        have hm : m ∈ xs := rustMaxByKey_mem f xs m hx
        show (if f m < f r then some r else some m) = some r
        by_cases hmr : m = r
        · subst hmr
          rw [if_neg (Nat.lt_irrefl _)]
        · have hlt : f m < f r := hmax m (List.mem_cons_of_mem r hm) hmr
          rw [if_pos hlt]
    · have hx : rustMaxByKey f xs = some r :=
        ih hmem (fun y hy hne => hmax y (List.mem_cons_of_mem x hy) hne)
      rw [hx]
      show (if f r < f x then some x else some r) = some r
      by_cases hxr : x = r
      · subst hxr
        rw [if_neg (Nat.lt_irrefl _)]
      · have hlt : f x < f r := hmax x (List.mem_cons_self x xs) hxr
        rw [if_neg (Nat.lt_asymm hlt)]

/-- Permuting the map-iteration order permutes the surviving rectangles. -/
theorem survivors_perm (labels : GrayImg) (o o2 : List Nat)
    (h : o.Perm o2) :
    (survivors labels o).Perm (survivors labels o2) :=
  (((h.filterMap (extentsFor labels)).map extentsToRect).filter arOK)

/-- C7, counterexample: the claim says ties in area are broken by the
first component encountered in scan order.  `tieLabels` holds two tied
in-window components, label 1 first in scan order; even when the map
iterates in scan order `[1, 2]`, `max_by_key` keeps the last maximal
element, so the component labelled 2 is selected and cropped, not the
first one. -/
theorem c7_tiebreak_last_not_first_cex :
    findCardRect tieLabels [1, 2] = some ⟨0, 4, 8, 2⟩ ∧
    rectArea ⟨0, 0, 8, 2⟩ = rectArea ⟨0, 4, 8, 2⟩ ∧
    arOK ⟨0, 0, 8, 2⟩ = true ∧
    survivors tieLabels [1, 2] = [⟨0, 0, 8, 2⟩, ⟨0, 4, 8, 2⟩] ∧
    findCardProcess (fun _ => tieLabels) [1, 2] tieOrig
      (PipelineData.Luma8 tieMask) =
      Except.ok (PipelineData.Rgb8 (cropRgb tieOrig ⟨0, 4, 8, 2⟩)) ∧
    cropRgb tieOrig ⟨0, 4, 8, 2⟩ ≠ cropRgb tieOrig ⟨0, 0, 8, 2⟩ :=
  ⟨by decide, by decide, by decide, by decide, by decide, by decide⟩

/-- C7, amended: region detection keeps only bounding boxes whose
width/height ratio lies in the half-open window `[3, 5)`, selects a
survivor of maximal area — with ties broken by the *last* survivor in the
map's unspecified iteration order, not the first in scan order — fails
with the no-card-found error exactly when no survivor exists, and when
exactly one survivor exists it is selected under every iteration order. -/
theorem c7_region_selection :
    (∀ (cc : GrayImg → GrayImg) (order : List Nat) (orig : RgbImg)
       (m : GrayImg),
      survivors (cc m) order = [] →
      findCardProcess cc order orig (PipelineData.Luma8 m) =
        Except.error ["no card found"]) ∧
    (∀ (labels : GrayImg) (order : List Nat) (r : Rect),
      findCardRect labels order = some r →
      r ∈ survivors labels order ∧
      ∀ x ∈ survivors labels order, rectArea x ≤ rectArea r) ∧
    (∀ (labels : GrayImg) (o o2 : List Nat) (r : Rect),
      o.Perm o2 → survivors labels o = [r] →
      findCardRect labels o2 = some r) := by
  refine ⟨?_, ?_, ?_⟩
  · intro cc order orig m h
    have hrect : findCardRect (cc m) order = none := by
      unfold findCardRect
      rw [h]
      rfl
    show (match findCardRect (cc m) order with
      | some r => Except.ok (PipelineData.Rgb8 (cropRgb orig r))
      | none => Except.error ["no card found"]) =
      Except.error ["no card found"]
    rw [hrect]
  · intro labels order r h
    exact ⟨rustMaxByKey_mem rectArea _ r h, rustMaxByKey_le rectArea _ r h⟩
  · intro labels o o2 r hperm hone
    have h2 : (survivors labels o2).Perm [r] := by
      have := survivors_perm labels o o2 hperm
      rw [hone] at this
      exact this.symm
    have h3 : survivors labels o2 = [r] := List.perm_singleton.mp h2
    unfold findCardRect
    rw [h3]
    rfl

/-- C7, witness: with one in-window component (label 1, the 8x2 box) and
one out-of-window component (label 2, the 2x2 box), the in-window one is
selected under both iteration orders of the two labels. -/
theorem c7_region_selection_witness :
    findCardRect inOutLabels [2, 1] = some ⟨0, 0, 8, 2⟩ ∧
    findCardRect inOutLabels [1, 2] = some ⟨0, 0, 8, 2⟩ :=
  ⟨c7_region_selection.2.2 inOutLabels [1, 2] [2, 1] ⟨0, 0, 8, 2⟩
    (by decide) (by decide),
   c7_region_selection.2.2 inOutLabels [1, 2] [1, 2] ⟨0, 0, 8, 2⟩
    (List.Perm.refl _) (by decide)⟩

/-- C9, counterexample: the claim says two runs on identical input bytes
return the same result, no stage introducing randomness.  The region
step's `HashMap` iteration order is unspecified and varies between runs;
on the mask whose two in-window components tie in area, the orders
`[1, 2]` and `[2, 1]` (both permutations of the same label set) make
`FindCardCrop` produce different crops, so two runs on the same bytes can
differ. -/
theorem c9_hash_order_changes_result_cex :
    List.Perm [1, 2] [2, 1] ∧
    findCardProcess (fun _ => tieLabels) [1, 2] tieOrig
      (PipelineData.Luma8 tieMask) ≠
    findCardProcess (fun _ => tieLabels) [2, 1] tieOrig
      (PipelineData.Luma8 tieMask) :=
  ⟨by decide, by decide⟩

/-- C9, amended: the embedded pipeline is a pure function of its input
except for the map iteration order in region detection; whenever the
surviving rectangle of maximal area is unique, the region step's result
is independent of that order, so two runs on identical input agree. -/
theorem c9_deterministic_when_unique_max
    (cc : GrayImg → GrayImg) (orig : RgbImg) (o o2 : List Nat)
    (data : PipelineData) (hperm : o.Perm o2)
    (huniq : ∀ m, data = PipelineData.Luma8 m →
      ∃ r, r ∈ survivors (cc m) o ∧
        ∀ x ∈ survivors (cc m) o, x ≠ r → rectArea x < rectArea r) :
    findCardProcess cc o orig data = findCardProcess cc o2 orig data := by
  cases data with
  | Luma8 m =>
    obtain ⟨r, hr, hmax⟩ := huniq m rfl
    have h1 : findCardRect (cc m) o = some r :=
      rustMaxByKey_unique rectArea _ r hr hmax
    have hperm2 : (survivors (cc m) o).Perm (survivors (cc m) o2) :=
      survivors_perm (cc m) o o2 hperm
    have h2 : findCardRect (cc m) o2 = some r :=
      rustMaxByKey_unique rectArea _ r (hperm2.mem_iff.mp hr)
        (fun x hx hne => hmax x (hperm2.mem_iff.mpr hx) hne)
    show (match findCardRect (cc m) o with
      | some r => Except.ok (PipelineData.Rgb8 (cropRgb orig r))
      | none => Except.error ["no card found"]) =
      (match findCardRect (cc m) o2 with
      | some r => Except.ok (PipelineData.Rgb8 (cropRgb orig r))
      | none => Except.error ["no card found"])
    rw [h1, h2]
  | Rgb8 img => rfl
  | PngBytes bytes => rfl
  | Text s => rfl

/-- C9, witness: on a mask whose two in-window components have distinct
areas, both iteration orders select the same region and the step output
coincides. -/
theorem c9_deterministic_when_unique_max_witness :
    findCardProcess (fun _ => uniqLabels) [1, 2] tieOrig
      (PipelineData.Luma8 tieMask) =
    findCardProcess (fun _ => uniqLabels) [2, 1] tieOrig
      (PipelineData.Luma8 tieMask) :=
  c9_deterministic_when_unique_max (fun _ => uniqLabels) tieOrig [1, 2] [2, 1]
    (PipelineData.Luma8 tieMask) (by decide)
    (fun m hm => by
      cases hm
      exact ⟨⟨0, 0, 8, 2⟩, by decide, by decide⟩)

/-! ## Claim C8: payload negotiation on already-small inputs -/

/-- C8, counterexample: the claim says an input whose initial encoding
already fits the budget is returned without resizing, its dimensions
never altered.  A 2000x1000 image whose every encoding is 1000 bytes
(base64 estimate 1336, far under the 3.9 MB budget) is nevertheless
downscaled to the 1280 initial side cap before the first encoding, so the
returned payload has dimensions 1280x640, not 2000x1000. -/
theorem c8_initial_cap_resizes_fitting_image_cex :
    fitsBudget 1000 = true ∧
    prepare_image_data_url c8lib ⟨2000, 1000, false⟩ =
      Except.ok ⟨ImgFormat.jpeg, ⟨1280, 640, false⟩⟩ ∧
    (⟨1280, 640, false⟩ : RImg) ≠ ⟨2000, 1000, false⟩ :=
  ⟨by decide, by decide, by decide⟩

/-- C8, amended: for an input whose long side does not exceed the 1280
initial cap and whose first-attempted encoding (PNG when the image has
alpha, otherwise JPEG at quality 85) fits the budget, `prepare` returns
on the first attempt without resizing and the payload keeps the image's
dimensions; inputs above the cap are downscaled first regardless of
encoded size. -/
theorem c8_prepare_small_input_first_attempt (lib : ImageLib) (img : RImg)
    (n : Nat) (hside : max img.w img.h ≤ 1280) :
    (img.alpha = true → lib.encPngLen img = some n → fitsBudget n = true →
      prepare_image_data_url lib img = Except.ok ⟨ImgFormat.png, img⟩) ∧
    (img.alpha = false → lib.encJpegLen img 85 = some n → fitsBudget n = true →
      prepare_image_data_url lib img = Except.ok ⟨ImgFormat.jpeg, img⟩) := by
  have hresize : resize_long_side lib img 1280 = img := by
    unfold resize_long_side
    rw [if_pos hside]
  constructor
  · intro halpha hpng hfit
    unfold prepare_image_data_url
    rw [hresize, halpha]
    show prepLoop lib 10 1280 img 85 true = Except.ok ⟨ImgFormat.png, img⟩
    unfold prepLoop roundAttempts
    rw [if_pos rfl, hpng]
    simp [List.find?, hfit]
  · intro halpha hjpg hfit
    unfold prepare_image_data_url
    rw [hresize, halpha]
    show prepLoop lib 10 1280 img 85 false = Except.ok ⟨ImgFormat.jpeg, img⟩
    unfold prepLoop roundAttempts
    simp only [if_neg (Bool.false_ne_true), hjpg]
    simp [List.find?, hfit]

/-- C8, witness: a 1000x500 alpha-free image with a fitting JPEG encoding
is returned unchanged on the first attempt. -/
theorem c8_prepare_small_input_first_attempt_witness :
    prepare_image_data_url c8lib ⟨1000, 500, false⟩ =
      Except.ok ⟨ImgFormat.jpeg, ⟨1000, 500, false⟩⟩ :=
  (c8_prepare_small_input_first_attempt c8lib ⟨1000, 500, false⟩ 1000
    (by decide)).2 rfl rfl (by decide)

/-! ## Claims C1 and C10: the strict duration parser -/

theorem isAsciiDigit_iff (c : Char) :
    isAsciiDigit c = true ↔ 0x30 ≤ c.toNat ∧ c.toNat ≤ 0x39 := by
  simp [isAsciiDigit]

/-- Every ASCII digit is in the Unicode `Nd` category. -/
theorem isNd_of_isAsciiDigit (c : Char) (h : isAsciiDigit c = true) :
    isNd c = true := by
  rw [isAsciiDigit_iff] at h
  rw [isNd, List.any_eq_true]
  refine ⟨(0x30, 0x39), by decide, ?_⟩
  simp only [Bool.and_eq_true, decide_eq_true_eq]
  exact ⟨h.1, h.2⟩

/-- Every `Nd` character has code point at least `0x30`. -/
theorem isNd_ge48 (c : Char) (h : isNd c = true) : 0x30 ≤ c.toNat := by
  have hall : ∀ r ∈ ndRanges, 0x30 ≤ r.1 := by decide
  rw [isNd, List.any_eq_true] at h
  obtain ⟨r, hr, hc⟩ := h
  simp only [Bool.and_eq_true, decide_eq_true_eq] at hc
  exact le_trans (hall r hr) hc.1

theorem ne_plus_of_ge48 (c : Char) (h : 0x30 ≤ c.toNat) :
    (c == '+') = false := by
  rw [beq_eq_false_iff_ne]
  intro hc
  subst hc
  exact absurd h (by decide)

theorem parseU64Go_cons_digit (c : Char) (cs : List Char) (acc : Nat)
    (h : isAsciiDigit c = true) (hlt : acc * 10 + (c.toNat - 0x30) < 2 ^ 64) :
    parseU64Go (c :: cs) acc = parseU64Go cs (acc * 10 + (c.toNat - 0x30)) := by
  simp only [parseU64Go]
  rw [if_pos h]
  show (if acc * 10 + (c.toNat - 0x30) < 2 ^ 64 then
      parseU64Go cs (acc * 10 + (c.toNat - 0x30))
    else Except.error "number too large to fit in target type") =
    parseU64Go cs (acc * 10 + (c.toNat - 0x30))
  rw [if_pos hlt]

theorem parseU64Go_cons_nondigit (c : Char) (cs : List Char) (acc : Nat)
    (h : isAsciiDigit c = false) :
    parseU64Go (c :: cs) acc = Except.error "invalid digit found in string" := by
  simp [parseU64Go, h]

theorem parseU64_of_ne_plus (c : Char) (cs : List Char)
    (h : (c == '+') = false) :
    parseU64 (c :: cs) = parseU64Go (c :: cs) 0 := by
  simp [parseU64, h]

/-- `parse::<u64>()` on a one-char string whose char is not `+`. -/
theorem parseU64_one (c : Char) (hge : 0x30 ≤ c.toNat) :
    parseU64 [c] = if isAsciiDigit c then Except.ok (c.toNat - 0x30)
      else Except.error "invalid digit found in string" := by
  rw [parseU64_of_ne_plus _ _ (ne_plus_of_ge48 _ hge)]
  cases hq : isAsciiDigit c with
  | true =>
    rw [parseU64Go_cons_digit _ _ _ hq
      (by have := (isAsciiDigit_iff c).mp hq; omega)]
    simp only [parseU64Go, hq, if_true]
    congr 1
    omega
  | false =>
    rw [parseU64Go_cons_nondigit _ _ _ hq]
    simp [hq]

/-- `parse::<u64>()` on a two-char string starting with an ASCII digit. -/
theorem parseU64_two (s1 s2 : Char) (h1 : isAsciiDigit s1 = true) :
    parseU64 [s1, s2] =
      if isAsciiDigit s2 then
        Except.ok ((s1.toNat - 0x30) * 10 + (s2.toNat - 0x30))
      else Except.error "invalid digit found in string" := by
  have hb1 := (isAsciiDigit_iff s1).mp h1
  rw [parseU64_of_ne_plus _ _ (ne_plus_of_ge48 _ hb1.1)]
  rw [parseU64Go_cons_digit _ _ _ h1 (by omega)]
  cases hq : isAsciiDigit s2 with
  | true =>
    have hb2 := (isAsciiDigit_iff s2).mp hq
    rw [parseU64Go_cons_digit _ _ _ hq (by omega)]
    simp only [parseU64Go, hq, if_true]
    congr 1
    omega
  | false =>
    rw [parseU64Go_cons_nondigit _ _ _ hq]
    simp [hq]

/-- `parse::<u64>()` on a three-char string whose first char has code
point at least `0x30` (hence is not `+`). -/
theorem parseU64_three (a b c : Char) (hgea : 0x30 ≤ a.toNat) :
    parseU64 [a, b, c] =
      if isAsciiDigit a && isAsciiDigit b && isAsciiDigit c then
        Except.ok (((a.toNat - 0x30) * 10 + (b.toNat - 0x30)) * 10 +
          (c.toNat - 0x30))
      else Except.error "invalid digit found in string" := by
  rw [parseU64_of_ne_plus _ _ (ne_plus_of_ge48 _ hgea)]
  cases hqa : isAsciiDigit a with
  | false =>
    rw [parseU64Go_cons_nondigit _ _ _ hqa]
    simp [hqa]
  | true =>
    have hba := (isAsciiDigit_iff a).mp hqa
    rw [parseU64Go_cons_digit _ _ _ hqa (by omega)]
    cases hqb : isAsciiDigit b with
    | false =>
      rw [parseU64Go_cons_nondigit _ _ _ hqb]
      simp [hqa, hqb]
    | true =>
      have hbb := (isAsciiDigit_iff b).mp hqb
      rw [parseU64Go_cons_digit _ _ _ hqb (by omega)]
      cases hqc : isAsciiDigit c with
      | false =>
        rw [parseU64Go_cons_nondigit _ _ _ hqc]
        simp [hqa, hqb, hqc]
      | true =>
        have hbc := (isAsciiDigit_iff c).mp hqc
        rw [parseU64Go_cons_digit _ _ _ hqc (by omega)]
        simp only [parseU64Go, hqa, hqb, hqc, Bool.and_self, if_true]
        congr 1
        omega

/-- Full evaluation of `parse_duration` on a string matched by the strict
regex: the numeric branches taken depend only on which captures are made
of ASCII digits, and the seconds guard never fires. -/
theorem parse_duration_matched (m0 s1 s2 a b c : Char)
    (hnd0 : isNd m0 = true) (hs1l : 0x30 ≤ s1.toNat) (hs1h : s1.toNat ≤ 0x35)
    (hnd2 : isNd s2 = true) (hnda : isNd a = true) (hndb : isNd b = true)
    (hndc : isNd c = true) :
    parse_duration (String.mk [m0, ':', s1, s2, '.', a, b, c]) =
      if isAsciiDigit m0 = false then
        Except.error (ExtractError.MinutesParse "invalid digit found in string")
      else if isAsciiDigit s2 = false then
        Except.error (ExtractError.SecondsParse "invalid digit found in string")
      else if (isAsciiDigit a && isAsciiDigit b && isAsciiDigit c) = false then
        Except.error (ExtractError.MillisParse "invalid digit found in string")
      else
        Except.ok ⟨((m0.toNat - 0x30) * 60 +
            ((s1.toNat - 0x30) * 10 + (s2.toNat - 0x30))) * 1000 +
          (((a.toNat - 0x30) * 10 + (b.toNat - 0x30)) * 10 +
            (c.toNat - 0x30))⟩ := by
  have hs1d : isAsciiDigit s1 = true := by
    rw [isAsciiDigit_iff]
    omega
  have hsc : strictCaps (String.mk [m0, ':', s1, s2, '.', a, b, c]) =
      some ([m0], [s1, s2], [a, b, c]) := by
    show timeCoreChars [m0, ':', s1, s2, '.', a, b, c] = _
    simp [timeCoreChars, hnd0, hnd2, hnda, hndb, hndc, hs1l, hs1h]
  have hstep : parse_duration (String.mk [m0, ':', s1, s2, '.', a, b, c]) =
      (match parseU64 [m0] with
       | Except.error e => Except.error (ExtractError.MinutesParse e)
       | Except.ok minutes =>
         match parseU64 [s1, s2] with
         | Except.error e => Except.error (ExtractError.SecondsParse e)
         | Except.ok seconds =>
           if seconds > 59 then
             Except.error (ExtractError.InvalidFormat (String.mk [s1, s2]))
           else
             match parseU64 [a, b, c] with
             | Except.error e => Except.error (ExtractError.MillisParse e)
             | Except.ok millis =>
               Except.ok ⟨(minutes * 60 + seconds) * 1000 + millis⟩) := by
    unfold parse_duration
    rw [hsc]
  rw [hstep]
  rw [parseU64_one m0 (isNd_ge48 m0 hnd0)]
  rw [parseU64_two s1 s2 hs1d]
  rw [parseU64_three a b c (isNd_ge48 a hnda)]
  cases hm : isAsciiDigit m0 with
  | false => simp [hm]
  | true =>
    cases hs2 : isAsciiDigit s2 with
    | false => simp [hm, hs2]
    | true =>
      have hb2 := (isAsciiDigit_iff s2).mp hs2
      have hle : ¬((s1.toNat - 0x30) * 10 + (s2.toNat - 0x30) > 59) := by
        omega
      cases hmil : (isAsciiDigit a && isAsciiDigit b && isAsciiDigit c) with
      | false => simp [hm, hs2, hmil, hle]
      | true => simp [hm, hs2, hmil, hle]

/-- Characterization of `parse_duration` against the amended grammar: it
succeeds exactly on the ASCII `M:SS.mmm` strings (one minute digit) and
then returns the claimed value. -/
theorem parse_chars_value (cs : List Char) (d : RDuration) :
    parse_duration (String.mk cs) = Except.ok d ↔
      claimTimeValue cs = some d.totalMillis := by
  obtain ⟨dm⟩ := d
  rcases cs with _ | ⟨x0, _ | ⟨x1, _ | ⟨x2, _ | ⟨x3, _ | ⟨x4, _ | ⟨x5,
    _ | ⟨x6, _ | ⟨x7, _ | ⟨x8, rest⟩⟩⟩⟩⟩⟩⟩⟩⟩
  · exact Iff.intro (fun h => nomatch h) (fun h => nomatch h)
  · exact Iff.intro (fun h => nomatch h) (fun h => nomatch h)
  · exact Iff.intro (fun h => nomatch h) (fun h => nomatch h)
  · exact Iff.intro (fun h => nomatch h) (fun h => nomatch h)
  · exact Iff.intro (fun h => nomatch h) (fun h => nomatch h)
  · exact Iff.intro (fun h => nomatch h) (fun h => nomatch h)
  · exact Iff.intro (fun h => nomatch h) (fun h => nomatch h)
  · exact Iff.intro (fun h => nomatch h) (fun h => nomatch h)
  case cons.cons.cons.cons.cons.cons.cons.cons.cons =>
    exact Iff.intro (fun h => nomatch h) (fun h => nomatch h)
  case cons.cons.cons.cons.cons.cons.cons.cons.nil =>
    by_cases hre : (isNd x0 && (x1 == ':') &&
        (decide (0x30 ≤ x2.toNat) && decide (x2.toNat ≤ 0x35)) && isNd x3 &&
        (x4 == '.') && isNd x5 && isNd x6 && isNd x7) = true
    · simp only [Bool.and_eq_true, beq_iff_eq, decide_eq_true_eq] at hre
      obtain ⟨⟨⟨⟨⟨⟨⟨h0, h1⟩, h2l, h2h⟩, h3⟩, h4⟩, h5⟩, h6⟩, h7⟩ := hre
      subst h1
      subst h4
      rw [parse_duration_matched x0 x2 x3 x5 x6 x7 h0 h2l h2h h3 h5 h6 h7]
      cases hm : isAsciiDigit x0 with
      | false => simp [claimTimeValue, hm]
      | true =>
        cases hs2 : isAsciiDigit x3 with
        | false => simp [claimTimeValue, hm, hs2]
        | true =>
          cases ha : isAsciiDigit x5 with
          | false => simp [claimTimeValue, hm, hs2, ha]
          | true =>
            cases hb : isAsciiDigit x6 with
            | false => simp [claimTimeValue, hm, hs2, ha, hb]
            | true =>
              cases hc : isAsciiDigit x7 with
              | false => simp [claimTimeValue, hm, hs2, ha, hb, hc]
              | true =>
                have hx2 : isAsciiDigit x2 = true := by
                  rw [isAsciiDigit_iff]
                  omega
                have hsec : 10 * (x2.toNat - 0x30) + (x3.toNat - 0x30) ≤ 59 := by
                  have := (isAsciiDigit_iff x3).mp hs2
                  omega
                have hb0 := (isAsciiDigit_iff x0).mp hm
                have hb3 := (isAsciiDigit_iff x3).mp hs2
                have hb5 := (isAsciiDigit_iff x5).mp ha
                have hb6 := (isAsciiDigit_iff x6).mp hb
                have hb7 := (isAsciiDigit_iff x7).mp hc
                simp only [claimTimeValue, hm, hs2, ha, hb, hc, hx2, hsec,
                  beq_self_eq_true, decide_True, Bool.and_self, Bool.true_and,
                  Bool.and_true, decide_eq_true_eq, Bool.true_eq_false,
                  if_false, if_true, eq_self_iff_true,
                  Except.ok.injEq, Option.some.injEq, RDuration.mk.injEq]
                constructor
                · intro h
                  omega
                · intro h
                  omega
    · have hscn : strictCaps (String.mk
          [x0, x1, x2, x3, x4, x5, x6, x7]) = none := by
        show timeCoreChars [x0, x1, x2, x3, x4, x5, x6, x7] = none
        simp only [timeCoreChars]
        rw [if_neg]
        exact hre
      have hpd : parse_duration (String.mk [x0, x1, x2, x3, x4, x5, x6, x7]) =
          Except.error (ExtractError.InvalidFormat
            (String.mk [x0, x1, x2, x3, x4, x5, x6, x7])) := by
        unfold parse_duration
        rw [hscn]
      have hcl : claimTimeValue [x0, x1, x2, x3, x4, x5, x6, x7] = none := by
        simp only [claimTimeValue]
        rw [if_neg]
        intro hcond
        apply hre
        simp only [Bool.and_eq_true, beq_iff_eq, decide_eq_true_eq] at hcond
        obtain ⟨⟨⟨⟨⟨⟨⟨⟨g0, g1⟩, g2⟩, g3⟩, gsec⟩, g4⟩, g5⟩, g6⟩, g7⟩ := hcond
        have hb2 := (isAsciiDigit_iff x2).mp g2
        have hb3 := (isAsciiDigit_iff x3).mp g3
        simp only [Bool.and_eq_true, beq_iff_eq, decide_eq_true_eq]
        refine ⟨⟨⟨⟨⟨⟨⟨isNd_of_isAsciiDigit x0 g0, g1⟩, hb2.1, by omega⟩,
          isNd_of_isAsciiDigit x3 g3⟩, g4⟩,
          isNd_of_isAsciiDigit x5 g5⟩, isNd_of_isAsciiDigit x6 g6⟩,
          isNd_of_isAsciiDigit x7 g7⟩
      rw [hpd, hcl]
      simp

/-- Inversion of a strict-regex match: the string is exactly eight chars
in the `(\d):([0-5]\d)\.(\d{3})` shape and the captures are the minute,
second and millisecond chars. -/
theorem timeCoreChars_inv (cs : List Char)
    (t : List Char × List Char × List Char) (h : timeCoreChars cs = some t) :
    ∃ m0 s1 s2 a b c, cs = [m0, ':', s1, s2, '.', a, b, c] ∧
      isNd m0 = true ∧ 0x30 ≤ s1.toNat ∧ s1.toNat ≤ 0x35 ∧ isNd s2 = true ∧
      isNd a = true ∧ isNd b = true ∧ isNd c = true ∧
      t = ([m0], [s1, s2], [a, b, c]) := by
  rcases cs with _ | ⟨x0, _ | ⟨x1, _ | ⟨x2, _ | ⟨x3, _ | ⟨x4, _ | ⟨x5,
    _ | ⟨x6, _ | ⟨x7, _ | ⟨x8, rest⟩⟩⟩⟩⟩⟩⟩⟩⟩
  · exact nomatch h
  · exact nomatch h
  · exact nomatch h
  · exact nomatch h
  · exact nomatch h
  · exact nomatch h
  · exact nomatch h
  · exact nomatch h
  case cons.cons.cons.cons.cons.cons.cons.cons.cons => exact nomatch h
  case cons.cons.cons.cons.cons.cons.cons.cons.nil =>
    simp only [timeCoreChars] at h
    by_cases hre : (isNd x0 && (x1 == ':') &&
        (decide (0x30 ≤ x2.toNat) && decide (x2.toNat ≤ 0x35)) && isNd x3 &&
        (x4 == '.') && isNd x5 && isNd x6 && isNd x7) = true
    · rw [if_pos hre] at h
      cases h
      simp only [Bool.and_eq_true, beq_iff_eq, decide_eq_true_eq] at hre
      obtain ⟨⟨⟨⟨⟨⟨⟨h0, h1⟩, h2l, h2h⟩, h3⟩, h4⟩, h5⟩, h6⟩, h7⟩ := hre
      subst h1
      subst h4
      exact ⟨x0, x2, x3, x5, x6, x7, rfl, h0, h2l, h2h, h3, h5, h6, h7, rfl⟩
    · rw [if_neg hre] at h
      exact nomatch h

/-- C1, counterexample: the claim is falsified on three inputs.
`"12:34.000"` matches the claimed grammar (two minute digits, seconds
00-59, three millisecond digits) yet the code rejects it, because the
strict regex allows exactly one minute digit; `" 1:05.250"` trims to a
claimed-grammar match yet is rejected, because `parse_duration` never
trims; and `"1:2٣.456"` (with the Arabic-Indic digit `٣` accepted by the
Unicode-aware `\d`) is outside the claimed grammar, so the claim demands
`InvalidFormat`, but the code returns a `SecondsParse` error instead. -/
theorem c1_strict_parse_divergences_cex :
    parse_duration "12:34.000" =
      Except.error (ExtractError.InvalidFormat "12:34.000") ∧
    parse_duration " 1:05.250" =
      Except.error (ExtractError.InvalidFormat " 1:05.250") ∧
    rustTrim " 1:05.250" = "1:05.250" ∧
    parse_duration "1:05.250" = Except.ok ⟨65250⟩ ∧
    parse_duration "1:2٣.456" =
      Except.error (ExtractError.SecondsParse "invalid digit found in string") :=
  ⟨by decide, by decide, by decide, by decide, by decide⟩

/-- C1, amended: `parse_duration` succeeds exactly when the raw string
(no trimming is applied) matches `M:SS.mmm` with exactly one ASCII minute
digit, two ASCII second digits of value at most 59 and exactly three
ASCII millisecond digits, and then returns minutes*60+seconds seconds
plus the milliseconds; strings rejected by the strict regex (whose `\d`
is Unicode-aware) yield the `InvalidFormat` error, while regex matches
containing a non-ASCII digit yield a numeric parse error instead. -/
theorem c1_parse_duration_characterization (s : String) :
    (∀ d : RDuration, parse_duration s = Except.ok d ↔
      claimTimeValue s.data = some d.totalMillis) ∧
    (strictCaps s = none →
      parse_duration s = Except.error (ExtractError.InvalidFormat s)) := by
  obtain ⟨cs⟩ := s
  constructor
  · intro d
    exact parse_chars_value cs d
  · intro h
    unfold parse_duration
    rw [h]

/-- C1, witness for the amended theorem: the characterization applied at
`"9:59.999"` (a grammar match with value 599.999 s) and at `"one two"`
(a non-match mapped to `InvalidFormat`). -/
theorem c1_parse_duration_characterization_witness :
    parse_duration "9:59.999" = Except.ok ⟨599999⟩ ∧
    parse_duration "one two" =
      Except.error (ExtractError.InvalidFormat "one two") :=
  ⟨((c1_parse_duration_characterization "9:59.999").1 ⟨599999⟩).mpr (by decide),
   (c1_parse_duration_characterization "one two").2 (by decide)⟩

/-- C10, counterexample: the claim says the numeric parse branches are
unreachable on regex-matched inputs.  `"٣:05.123"` is matched by
`TIME_STRICT_RE` (its `\d` is Unicode-aware and `٣` is an Arabic-Indic
digit), yet `parse::<u64>()` rejects the capture, so `parse_duration`
reaches the `MinutesParse` branch. -/
theorem c10_unicode_digit_parse_branch_cex :
    strictCaps "٣:05.123" = some (['٣'], ['0', '5'], ['1', '2', '3']) ∧
    parse_duration "٣:05.123" =
      Except.error (ExtractError.MinutesParse "invalid digit found in string") :=
  ⟨by decide, by decide⟩

/-- C10, amended: on every strict-regex match the seconds-over-59
`InvalidFormat` branch is unreachable, and when all three captures
consist of ASCII digits the three numeric parse branches are unreachable
too and `parse_duration` succeeds; but the regex's `\d` is Unicode-aware,
so a match may carry non-ASCII digits, which do reach the numeric parse
branches. -/
theorem c10_matched_parse_branches (s : String)
    (mc sc msc : List Char) (h : strictCaps s = some (mc, sc, msc)) :
    ((mc ++ sc ++ msc).all isAsciiDigit = true →
      ∃ d, parse_duration s = Except.ok d) ∧
    (∀ x, parse_duration s ≠ Except.error (ExtractError.InvalidFormat x)) := by
  obtain ⟨cs⟩ := s
  obtain ⟨m0, s1, s2, a, b, c, hcs, h0, h2l, h2h, h3, h5, h6, h7, ht⟩ :=
    timeCoreChars_inv cs (mc, sc, msc) h
  subst hcs
  simp only [Prod.mk.injEq] at ht
  obtain ⟨hmc, hsc2, hmsc⟩ := ht
  subst hmc
  subst hsc2
  subst hmsc
  rw [parse_duration_matched m0 s1 s2 a b c h0 h2l h2h h3 h5 h6 h7]
  constructor
  · intro hall
    simp only [List.append_assoc, List.cons_append, List.nil_append,
      List.all_cons, List.all_nil, Bool.and_eq_true, Bool.and_true] at hall
    obtain ⟨hdm, hds1, hds2, hda, hdb, hdc⟩ := hall
    refine ⟨⟨((m0.toNat - 0x30) * 60 +
        ((s1.toNat - 0x30) * 10 + (s2.toNat - 0x30))) * 1000 +
      (((a.toNat - 0x30) * 10 + (b.toNat - 0x30)) * 10 +
        (c.toNat - 0x30))⟩, ?_⟩
    simp [hdm, hds2, hda, hdb, hdc]
  · intro x
    cases hm : isAsciiDigit m0 <;> cases hs2q : isAsciiDigit s2 <;>
      cases hmil : (isAsciiDigit a && isAsciiDigit b && isAsciiDigit c) <;>
      simp [hm, hs2q, hmil]

/-- C10, witness: the amended theorem applied at the all-ASCII match
`"1:05.250"`: parsing succeeds and no `InvalidFormat` error can result. -/
theorem c10_matched_parse_branches_witness :
    (∃ d, parse_duration "1:05.250" = Except.ok d) ∧
    parse_duration "1:05.250" ≠
      Except.error (ExtractError.InvalidFormat "1:05.250") :=
  have h := c10_matched_parse_branches "1:05.250" ['1'] ['0', '5']
    ['2', '5', '0'] (by decide)
  ⟨h.1 (by decide), h.2 "1:05.250"⟩
